import Mathlib

/-!
Verification of the CSW harvesting core of `gdi-de-csw-to-atproto`.

The embedding translates the TypeScript sources:
* `src/csw-client.ts` — request encoder `buildGetRecordsXml`, streaming
  extractor `parseGetRecordsResponse`, pagination loop `fetchAllRecords`;
* `src/sync.ts` — cursor state machine (`readCursor`/`writeCursor` and the
  page loop of `main`);
* `src/worker.ts` — the scheduled worker entry point.

JavaScript numbers that can be `NaN` or `Infinity` are modelled by `JsNum`.
Network I/O is modelled by oracle functions passed as parameters; the SAX
tag-event stream is modelled by `SaxEvent` lists.
-/

/-- Model of the JavaScript numbers that occur in the client: integers,
`NaN` (from a failed `parseInt`) and `Infinity` (the default
`maxTotalRecords`). -/
inductive JsNum where
  | nan : JsNum
  | inf : JsNum
  | i (v : Int) : JsNum
deriving DecidableEq, Repr

/-- JavaScript `a > b` (comparisons with `NaN` are false). -/
def jsGtB : JsNum → JsNum → Bool
  | JsNum.nan, _ => false
  | _, JsNum.nan => false
  | JsNum.i a, JsNum.i b => decide (b < a)
  | JsNum.inf, JsNum.inf => false
  | JsNum.inf, JsNum.i _ => true
  | JsNum.i _, JsNum.inf => false

/-- JavaScript `a <= b` (comparisons with `NaN` are false). -/
def jsLeB : JsNum → JsNum → Bool
  | JsNum.nan, _ => false
  | _, JsNum.nan => false
  | JsNum.i a, JsNum.i b => decide (a ≤ b)
  | JsNum.inf, JsNum.inf => true
  | JsNum.inf, JsNum.i _ => false
  | JsNum.i _, JsNum.inf => true

/-- JavaScript `a < b` (comparisons with `NaN` are false). -/
def jsLtB : JsNum → JsNum → Bool
  | JsNum.nan, _ => false
  | _, JsNum.nan => false
  | JsNum.i a, JsNum.i b => decide (a < b)
  | JsNum.inf, JsNum.inf => false
  | JsNum.inf, JsNum.i _ => false
  | JsNum.i _, JsNum.inf => true

/-- JavaScript subtraction on the values the client produces
(`Infinity - n = Infinity`; anything involving `NaN` is `NaN`). -/
def jsSub : JsNum → JsNum → JsNum
  | JsNum.nan, _ => JsNum.nan
  | _, JsNum.nan => JsNum.nan
  | JsNum.inf, JsNum.inf => JsNum.nan
  | JsNum.inf, JsNum.i _ => JsNum.inf
  | JsNum.i _, JsNum.inf => JsNum.nan
  | JsNum.i a, JsNum.i b => JsNum.i (a - b)

/-- JavaScript `Math.min` (propagates `NaN`). -/
def jsMin : JsNum → JsNum → JsNum
  | JsNum.nan, _ => JsNum.nan
  | _, JsNum.nan => JsNum.nan
  | JsNum.inf, b => b
  | a, JsNum.inf => a
  | JsNum.i a, JsNum.i b => JsNum.i (min a b)

/-- Whitespace recognised by the string trimming / `parseInt` model. -/
def wsChar (c : Char) : Bool :=
  c = ' ' || c = '\t' || c = '\n' || c = '\r'

/-- Model of JavaScript `String.prototype.trim`. -/
def jsTrim (s : String) : String :=
  ⟨((s.data.dropWhile wsChar).reverse.dropWhile wsChar).reverse⟩

/-- Numeric value of a list of decimal digit characters. -/
def digitsToNat (ds : List Char) : Nat :=
  ds.foldl (fun a c => 10 * a + (c.toNat - 48)) 0

/-- Model of JavaScript `parseInt(s, 10)`: skip leading whitespace, read an
optional sign and then a maximal run of decimal digits; `NaN` when no digit
follows. -/
def jsParseInt (s : String) : JsNum :=
  let cs := s.data.dropWhile wsChar
  let signAndRest : Int × List Char :=
    match cs with
    | '-' :: rest => (-1, rest)
    | '+' :: rest => (1, rest)
    | _ => (1, cs)
  let ds := signAndRest.2.takeWhile Char.isDigit
  if ds = [] then JsNum.nan else JsNum.i (signAndRest.1 * digitsToNat ds)

/-- JavaScript `s || dflt` for strings (the empty string is falsy). -/
def jsOr (s dflt : String) : String := if s = "" then dflt else s

/-- `attrs.key` on a SAX attribute object, as an association-list lookup. -/
def lookupAttr (attrs : List (String × String)) (key : String) : Option String :=
  (attrs.find? (fun p => p.1 = key)).map (fun p => p.2)

/-- `attrs.key || '0'` as used by the extractor on the SearchResults
attributes (`undefined` and the empty string both fall back to `"0"`). -/
def attrOrZero (attrs : List (String × String)) (key : String) : String :=
  jsOr ((lookupAttr attrs key).getD "") "0"

/-- JavaScript `path.join('/')`. -/
def joinSlash : List String → String
  | [] => ""
  | [s] => s
  | s :: rest => s ++ "/" ++ joinSlash rest

/-- JavaScript `s.endsWith(pat)`, at character level. -/
def endsWithS (s pat : String) : Bool :=
  pat.data.isSuffixOf s.data

/-- One harvested metadata record (`CswRecord` in `csw-client.ts`). -/
structure CswRecord where
  source : Option String
  dateStamp : Option String
  title : Option String
deriving DecidableEq, Repr

/-- Pagination attributes of the `csw:SearchResults` element
(`Pagination` in `csw-client.ts`). -/
structure Pagination where
  numberOfRecordsMatched : JsNum
  numberOfRecordsReturned : JsNum
  nextRecord : JsNum
  hasMore : Bool
deriving DecidableEq, Repr

/-- The value `parseGetRecordsResponse` returns. -/
structure ParseOutput where
  pagination : Pagination
  records : List CswRecord
deriving DecidableEq, Repr

/-- One SAX tag event: the extractor consumes a stream of these. -/
inductive SaxEvent where
  | openTag (name : String) (attrs : List (String × String)) : SaxEvent
  | text (s : String) : SaxEvent
  | closeTag (name : String) : SaxEvent
deriving DecidableEq, Repr

/-- Mutable state of `parseGetRecordsResponse` while consuming the stream. -/
structure ParseState where
  pagination : Pagination
  records : List CswRecord
  currentRecord : Option CswRecord
  currentPath : List String
  textBuffer : String
deriving DecidableEq, Repr

/-- Initial extractor state (`result` plus the trackers in
`parseGetRecordsResponse`). -/
def initParseState : ParseState :=
  { pagination :=
      { numberOfRecordsMatched := JsNum.i 0
        numberOfRecordsReturned := JsNum.i 0
        nextRecord := JsNum.i 0
        hasMore := false }
    records := []
    currentRecord := none
    currentPath := []
    textBuffer := "" }

/-- The `parser.onopentag` handler of `parseGetRecordsResponse`
(`src/csw-client.ts`, TS version): push the tag, reset the text buffer,
read the pagination attributes on `csw:SearchResults`, open a fresh record
on `gmd:MD_Metadata`. -/
def onOpenTag (st : ParseState) (name : String)
    (attrs : List (String × String)) : ParseState :=
  let st := { st with currentPath := st.currentPath ++ [name], textBuffer := "" }
  if name = "csw:SearchResults" then
    let matched := jsParseInt (attrOrZero attrs "numberOfRecordsMatched")
    let returned := jsParseInt (attrOrZero attrs "numberOfRecordsReturned")
    let next := jsParseInt (attrOrZero attrs "nextRecord")
    { st with pagination :=
        { numberOfRecordsMatched := matched
          numberOfRecordsReturned := returned
          nextRecord := next
          hasMore := jsGtB next (JsNum.i 0) && jsLeB next matched } }
  else if name = "gmd:MD_Metadata" then
    { st with currentRecord := some ⟨none, none, none⟩ }
  else
    st

/-- The `parser.ontext` handler: append to the text buffer. -/
def onText (st : ParseState) (s : String) : ParseState :=
  { st with textBuffer := st.textBuffer ++ s }

/-- Suffix path locating the source identifier. -/
def sourcePat : String :=
  "gmd:citation/gmd:CI_Citation/gmd:identifier/gmd:MD_Identifier/gmd:code/gco:CharacterString"

/-- Suffix paths locating the modification date. -/
def datePatA : String := "gmd:dateStamp/gco:DateTime"

/-- Second accepted modification-date suffix path. -/
def datePatB : String := "gmd:dateStamp/gco:Date"

/-- Suffix path locating the title. -/
def titlePat : String := "gmd:citation/gmd:CI_Citation/gmd:title/gco:CharacterString"

/-- The `parser.onclosetag` handler: match the joined path against the
field suffix table, finalize the record on a closing `gmd:MD_Metadata`,
pop the path. -/
def onCloseTag (st : ParseState) (name : String) : ParseState :=
  let pathStr := joinSlash st.currentPath
  let st :=
    match st.currentRecord with
    | some r =>
      if endsWithS pathStr sourcePat then
        { st with currentRecord := some { r with source := some (jsTrim st.textBuffer) } }
      else if endsWithS pathStr datePatA || endsWithS pathStr datePatB then
        { st with currentRecord := some { r with dateStamp := some (jsTrim st.textBuffer) } }
      else if endsWithS pathStr titlePat then
        { st with currentRecord := some { r with title := some (jsTrim st.textBuffer) } }
      else st
    | none => st
  let st :=
    match st.currentRecord with
    | some r =>
      if name = "gmd:MD_Metadata" then
        { st with records := st.records ++ [r], currentRecord := none }
      else st
    | none => st
  { st with currentPath := st.currentPath.dropLast }

/-- Dispatch one SAX event to its handler. -/
def parseStep (st : ParseState) (ev : SaxEvent) : ParseState :=
  match ev with
  | SaxEvent.openTag name attrs => onOpenTag st name attrs
  | SaxEvent.text s => onText st s
  | SaxEvent.closeTag name => onCloseTag st name

/-- `parseGetRecordsResponse`, as a fold of the handlers over the SAX
event stream of the response body. -/
def parseGetRecordsResponse (evs : List SaxEvent) : ParseOutput :=
  let st := evs.foldl parseStep initParseState
  { pagination := st.pagination, records := st.records }

/-- The pagination invariant maintained by the extractor: the stored
`hasMore` flag always equals the conjunction recomputed from the stored
`nextRecord` and `numberOfRecordsMatched` fields. -/
def pagInvariant (st : ParseState) : Prop :=
  st.pagination.hasMore =
    (jsGtB st.pagination.nextRecord (JsNum.i 0) &&
      jsLeB st.pagination.nextRecord st.pagination.numberOfRecordsMatched)

theorem onText_pagination (st : ParseState) (s : String) :
    (onText st s).pagination = st.pagination := rfl

theorem onCloseTag_pagination (st : ParseState) (name : String) :
    (onCloseTag st name).pagination = st.pagination := by
  unfold onCloseTag
  cases st.currentRecord <;> dsimp only <;>
    (repeat (first | rfl | split))

theorem parseStep_pagInvariant (st : ParseState) (ev : SaxEvent)
    (h : pagInvariant st) : pagInvariant (parseStep st ev) := by
  cases ev with
  | openTag name attrs =>
    unfold pagInvariant parseStep onOpenTag
    dsimp only
    split
    · rfl
    · split <;> exact h
  | text s =>
    unfold pagInvariant parseStep
    rw [onText_pagination]; exact h
  | closeTag name =>
    unfold pagInvariant parseStep
    rw [onCloseTag_pagination]; exact h

theorem foldl_pagInvariant (evs : List SaxEvent) :
    ∀ st : ParseState, pagInvariant st → pagInvariant (evs.foldl parseStep st) := by
  induction evs with
  | nil => intro st h; exact h
  | cons ev rest ih => intro st h; exact ih _ (parseStep_pagInvariant st ev h)

/-- Boundary response of C1: `totalMatched = 1`, `returned = 1`,
`nextRecord = 0` (a complete final page). -/
def boundaryLastPage : List SaxEvent :=
  [SaxEvent.openTag "csw:SearchResults"
     [("numberOfRecordsMatched", "1"), ("numberOfRecordsReturned", "1"),
      ("nextRecord", "0")],
   SaxEvent.closeTag "csw:SearchResults"]

/-- Boundary response of C1: `nextRecord = totalMatched` (`= 5`), the
last-page edge where `hasMore` must still be true. -/
def boundaryFullPage : List SaxEvent :=
  [SaxEvent.openTag "csw:SearchResults"
     [("numberOfRecordsMatched", "5"), ("numberOfRecordsReturned", "5"),
      ("nextRecord", "5")],
   SaxEvent.closeTag "csw:SearchResults"]

/-- C1: for every parsed GetRecords response, the resulting `hasMore` flag
is true iff `nextRecord > 0` and `nextRecord <= totalMatched` (with the
JavaScript comparison semantics the code uses); in particular the response
with `totalMatched = 1, returned = 1, nextRecord = 0` yields
`hasMore = false`, and a response with `nextRecord = totalMatched` (here 5)
yields `hasMore = true`. -/
theorem claim1_hasMore_iff :
    (∀ evs : List SaxEvent,
      ((parseGetRecordsResponse evs).pagination.hasMore = true ↔
        (jsGtB (parseGetRecordsResponse evs).pagination.nextRecord (JsNum.i 0) = true ∧
         jsLeB (parseGetRecordsResponse evs).pagination.nextRecord
           (parseGetRecordsResponse evs).pagination.numberOfRecordsMatched = true))) ∧
    (parseGetRecordsResponse boundaryLastPage).pagination.hasMore = false ∧
    (parseGetRecordsResponse boundaryFullPage).pagination.hasMore = true := by
  refine ⟨?_, by decide, by decide⟩
  intro evs
  have h := foldl_pagInvariant evs initParseState rfl
  unfold pagInvariant at h
  unfold parseGetRecordsResponse
  dsimp only
  rw [h, Bool.and_eq_true]

def recordOpenEvents : List SaxEvent :=
  [SaxEvent.openTag "gmd:MD_Metadata" [],
   SaxEvent.openTag "gmd:identificationInfo" [],
   SaxEvent.openTag "gmd:MD_DataIdentification" [],
   SaxEvent.openTag "gmd:citation" [],
   SaxEvent.openTag "gmd:CI_Citation" []]

def titleElement (t : String) : List SaxEvent :=
  [SaxEvent.openTag "gmd:title" [],
   SaxEvent.openTag "gco:CharacterString" [],
   SaxEvent.text t,
   SaxEvent.closeTag "gco:CharacterString",
   SaxEvent.closeTag "gmd:title"]

def recordCloseEvents : List SaxEvent :=
  [SaxEvent.closeTag "gmd:CI_Citation",
   SaxEvent.closeTag "gmd:citation",
   SaxEvent.closeTag "gmd:MD_DataIdentification",
   SaxEvent.closeTag "gmd:identificationInfo",
   SaxEvent.closeTag "gmd:MD_Metadata"]

def citationPath : List String :=
  ["gmd:MD_Metadata", "gmd:identificationInfo", "gmd:MD_DataIdentification",
   "gmd:citation", "gmd:CI_Citation"]

def twoTitleRecord (t1 t2 : String) : List SaxEvent :=
  recordOpenEvents ++ titleElement t1 ++ titleElement t2 ++ recordCloseEvents

theorem run_recordOpenEvents :
    List.foldl parseStep initParseState recordOpenEvents =
      ⟨initParseState.pagination, [], some ⟨none, none, none⟩, citationPath, ""⟩ := by
  rfl

set_option maxHeartbeats 2000000 in
theorem run_titleElement (pg : Pagination) (rs : List CswRecord) (r : CswRecord)
    (tb t : String) :
    List.foldl parseStep ⟨pg, rs, some r, citationPath, tb⟩ (titleElement t) =
      ⟨pg, rs, some { r with title := some (jsTrim t) }, citationPath, t⟩ := by
  rfl

theorem closeStep_CI_Citation (pg : Pagination) (rs : List CswRecord)
    (r : CswRecord) (tb : String) :
    parseStep ⟨pg, rs, some r, citationPath, tb⟩
      (SaxEvent.closeTag "gmd:CI_Citation") =
    ⟨pg, rs, some r,
      ["gmd:MD_Metadata", "gmd:identificationInfo", "gmd:MD_DataIdentification",
       "gmd:citation"], tb⟩ := by
  rfl

theorem closeStep_citation (pg : Pagination) (rs : List CswRecord)
    (r : CswRecord) (tb : String) :
    parseStep ⟨pg, rs, some r,
      ["gmd:MD_Metadata", "gmd:identificationInfo", "gmd:MD_DataIdentification",
       "gmd:citation"], tb⟩
      (SaxEvent.closeTag "gmd:citation") =
    ⟨pg, rs, some r,
      ["gmd:MD_Metadata", "gmd:identificationInfo", "gmd:MD_DataIdentification"],
      tb⟩ := by
  rfl

theorem closeStep_MD_DataIdentification (pg : Pagination) (rs : List CswRecord)
    (r : CswRecord) (tb : String) :
    parseStep ⟨pg, rs, some r,
      ["gmd:MD_Metadata", "gmd:identificationInfo", "gmd:MD_DataIdentification"],
      tb⟩
      (SaxEvent.closeTag "gmd:MD_DataIdentification") =
    ⟨pg, rs, some r, ["gmd:MD_Metadata", "gmd:identificationInfo"], tb⟩ := by
  rfl

theorem closeStep_identificationInfo (pg : Pagination) (rs : List CswRecord)
    (r : CswRecord) (tb : String) :
    parseStep ⟨pg, rs, some r, ["gmd:MD_Metadata", "gmd:identificationInfo"], tb⟩
      (SaxEvent.closeTag "gmd:identificationInfo") =
    ⟨pg, rs, some r, ["gmd:MD_Metadata"], tb⟩ := by
  rfl

theorem closeStep_MD_Metadata (pg : Pagination) (rs : List CswRecord)
    (r : CswRecord) (tb : String) :
    parseStep ⟨pg, rs, some r, ["gmd:MD_Metadata"], tb⟩
      (SaxEvent.closeTag "gmd:MD_Metadata") =
    ⟨pg, rs ++ [r], none, [], tb⟩ := by
  rfl

theorem run_recordCloseEvents (pg : Pagination) (rs : List CswRecord)
    (r : CswRecord) (tb : String) :
    List.foldl parseStep ⟨pg, rs, some r, citationPath, tb⟩ recordCloseEvents =
      ⟨pg, rs ++ [r], none, [], tb⟩ := by
  simp only [recordCloseEvents, List.foldl_cons, List.foldl_nil]
  rw [closeStep_CI_Citation, closeStep_citation, closeStep_MD_DataIdentification,
    closeStep_identificationInfo, closeStep_MD_Metadata]

theorem twoTitle_state (t1 t2 : String) :
    List.foldl parseStep initParseState (twoTitleRecord t1 t2) =
      ⟨initParseState.pagination, [⟨none, none, some (jsTrim t2)⟩], none, [], t2⟩ := by
  unfold twoTitleRecord
  rw [List.foldl_append, List.foldl_append, List.foldl_append,
    run_recordOpenEvents, run_titleElement, run_titleElement,
    run_recordCloseEvents]
  simp

/-- C4 (amended): when the same field-bearing suffix path matches at more
than one close-tag within one record, the extractor keeps the value of the
LAST matching occurrence: each later match overwrites the field assigned by
an earlier equally-suffixed match. For a record carrying two title elements
with texts `t1` and `t2`, the emitted record's title is `jsTrim t2`. -/
theorem claim4_last_match_wins (t1 t2 : String) :
    (parseGetRecordsResponse (twoTitleRecord t1 t2)).records =
      [⟨none, none, some (jsTrim t2)⟩] := by
  dsimp only [parseGetRecordsResponse]
  rw [twoTitle_state]

/-- C4 (counterexample): the claim "first match wins" is false on the code:
in a record whose citation carries the title "First" followed by a second
equally-suffixed title "Second", the extractor emits the record with title
"Second", not "First". -/
theorem claim4_counterexample :
    (parseGetRecordsResponse (twoTitleRecord "First" "Second")).records =
      [⟨none, none, some "Second"⟩] ∧ ("Second" : String) ≠ "First" := by
  exact ⟨by decide, by decide⟩

/-- Path inside the `csw:SearchResults` element. -/
def searchPath : List String := ["csw:GetRecordsResponse", "csw:SearchResults"]

/-- A record-root element with no recognized child field paths. -/
def emptyRecordBlock : List SaxEvent :=
  [SaxEvent.openTag "gmd:MD_Metadata" [], SaxEvent.closeTag "gmd:MD_Metadata"]

/-- `k` consecutive empty record-root elements. -/
def emptyBlocks : Nat → List SaxEvent
  | 0 => []
  | k + 1 => emptyRecordBlock ++ emptyBlocks k

/-- A GetRecords response with given pagination attribute strings and `k`
record-root elements. -/
def mkResponse (mAttr rAttr nAttr : String) (k : Nat) : List SaxEvent :=
  [SaxEvent.openTag "csw:GetRecordsResponse" [],
   SaxEvent.openTag "csw:SearchResults"
     [("numberOfRecordsMatched", mAttr), ("numberOfRecordsReturned", rAttr),
      ("nextRecord", nAttr)]] ++
  emptyBlocks k ++
  [SaxEvent.closeTag "csw:SearchResults",
   SaxEvent.closeTag "csw:GetRecordsResponse"]

theorem run_responseOpen (mAttr rAttr nAttr : String) :
    List.foldl parseStep initParseState
      [SaxEvent.openTag "csw:GetRecordsResponse" [],
       SaxEvent.openTag "csw:SearchResults"
         [("numberOfRecordsMatched", mAttr), ("numberOfRecordsReturned", rAttr),
          ("nextRecord", nAttr)]] =
      ⟨⟨jsParseInt (jsOr mAttr "0"), jsParseInt (jsOr rAttr "0"),
        jsParseInt (jsOr nAttr "0"),
        jsGtB (jsParseInt (jsOr nAttr "0")) (JsNum.i 0) &&
          jsLeB (jsParseInt (jsOr nAttr "0")) (jsParseInt (jsOr mAttr "0"))⟩,
       [], none, searchPath, ""⟩ := by
  rfl

theorem run_emptyRecordBlock (pg : Pagination) (rs : List CswRecord) (tb : String) :
    List.foldl parseStep ⟨pg, rs, none, searchPath, tb⟩ emptyRecordBlock =
      ⟨pg, rs ++ [⟨none, none, none⟩], none, searchPath, ""⟩ := by
  rfl

theorem run_emptyBlocks (k : Nat) :
    ∀ (pg : Pagination) (rs : List CswRecord) (tb : String),
    ∃ tb' : String,
      List.foldl parseStep ⟨pg, rs, none, searchPath, tb⟩ (emptyBlocks k) =
        ⟨pg, rs ++ List.replicate k ⟨none, none, none⟩, none, searchPath, tb'⟩ := by
  induction k with
  | zero =>
    intro pg rs tb
    exact ⟨tb, by simp [emptyBlocks]⟩
  | succ k ih =>
    intro pg rs tb
    obtain ⟨tb', h⟩ := ih pg (rs ++ [⟨none, none, none⟩]) ""
    refine ⟨tb', ?_⟩
    rw [emptyBlocks, List.foldl_append, run_emptyRecordBlock, h,
      List.append_assoc, List.replicate_succ]
    rfl

theorem run_responseClose (pg : Pagination) (rs : List CswRecord) (tb : String) :
    List.foldl parseStep ⟨pg, rs, none, searchPath, tb⟩
      [SaxEvent.closeTag "csw:SearchResults",
       SaxEvent.closeTag "csw:GetRecordsResponse"] =
      ⟨pg, rs, none, [], tb⟩ := by
  rfl

/-- C8 (amended): `returned` is taken verbatim from the
`numberOfRecordsReturned` attribute, so it equals the length of the records
list exactly when the server reports consistently: for every response whose
parsed `numberOfRecordsReturned` attribute equals the number `k` of
record-root elements, the extractor's `returned` equals `records.length`. -/
theorem claim8_returned_consistent (mAttr rAttr nAttr : String) (k : Nat)
    (h : jsParseInt (jsOr rAttr "0") = JsNum.i k) :
    (parseGetRecordsResponse (mkResponse mAttr rAttr nAttr k)).records.length = k ∧
    (parseGetRecordsResponse (mkResponse mAttr rAttr nAttr k)).pagination.numberOfRecordsReturned =
      JsNum.i ((parseGetRecordsResponse (mkResponse mAttr rAttr nAttr k)).records.length) := by
  obtain ⟨tb', hblocks⟩ := run_emptyBlocks k
    ⟨jsParseInt (jsOr mAttr "0"), jsParseInt (jsOr rAttr "0"),
     jsParseInt (jsOr nAttr "0"),
     jsGtB (jsParseInt (jsOr nAttr "0")) (JsNum.i 0) &&
       jsLeB (jsParseInt (jsOr nAttr "0")) (jsParseInt (jsOr mAttr "0"))⟩
    [] ""
  have hparse : parseGetRecordsResponse (mkResponse mAttr rAttr nAttr k) =
      ⟨⟨jsParseInt (jsOr mAttr "0"), jsParseInt (jsOr rAttr "0"),
        jsParseInt (jsOr nAttr "0"),
        jsGtB (jsParseInt (jsOr nAttr "0")) (JsNum.i 0) &&
          jsLeB (jsParseInt (jsOr nAttr "0")) (jsParseInt (jsOr mAttr "0"))⟩,
       List.replicate k ⟨none, none, none⟩⟩ := by
    unfold parseGetRecordsResponse mkResponse
    rw [List.foldl_append, List.foldl_append, run_responseOpen, hblocks,
      run_responseClose]
    simp
  rw [hparse]
  exact ⟨by simp, by simp [h]⟩

/-- Witness for C8 (amended) at `matched="5", returned="2", nextRecord="0"`
with two record elements. -/
theorem claim8_witness :
    jsParseInt (jsOr "2" "0") = JsNum.i 2 ∧
    (parseGetRecordsResponse (mkResponse "5" "2" "0" 2)).records.length = 2 ∧
    (parseGetRecordsResponse (mkResponse "5" "2" "0" 2)).pagination.numberOfRecordsReturned =
      JsNum.i ((parseGetRecordsResponse (mkResponse "5" "2" "0" 2)).records.length) := by
  refine ⟨by decide, ?_⟩
  exact claim8_returned_consistent "5" "2" "0" 2 (by decide)

/-- C8 (counterexample): the invariant `returned == len(records)` fails on
a well-formed response whose attribute is inconsistent: the extractor runs
to completion on a response claiming `numberOfRecordsReturned="1"` with no
record elements and yields `returned = 1` but an empty records list. -/
theorem claim8_counterexample :
    (parseGetRecordsResponse boundaryLastPage).pagination.numberOfRecordsReturned =
      JsNum.i 1 ∧
    (parseGetRecordsResponse boundaryLastPage).records.length = 0 ∧
    (parseGetRecordsResponse boundaryLastPage).pagination.numberOfRecordsReturned ≠
      JsNum.i ((parseGetRecordsResponse boundaryLastPage).records.length) := by
  exact ⟨by decide, by decide, by decide⟩

/-- Arguments of one `fetchPage` call made by `fetchAllRecords` (the window
dates and endpoint are fixed for the whole loop and omitted). -/
structure FetchArgsA where
  maxRecords : JsNum
  startPosition : JsNum
deriving DecidableEq, Repr

/-- The canonical pagination shape `fetchPage` returns (field names after
the verbatim translation at the end of `fetchPage`). -/
structure PagePagination where
  totalMatched : JsNum
  returned : JsNum
  nextRecord : JsNum
  hasMore : Bool
deriving DecidableEq, Repr

/-- Result of one `fetchPage` call. -/
structure PageResult where
  records : List CswRecord
  pagination : PagePagination
deriving DecidableEq, Repr

/-- The verbatim field translation `fetchPage` applies to the extractor's
output (no other transformation). -/
def toPageResult (o : ParseOutput) : PageResult :=
  ⟨o.records,
   ⟨o.pagination.numberOfRecordsMatched, o.pagination.numberOfRecordsReturned,
    o.pagination.nextRecord, o.pagination.hasMore⟩⟩

/-- Summary part of the `fetchAllRecords` return value. -/
structure AllSummary where
  totalMatched : JsNum
  totalFetched : Nat
  pagesRequested : Nat
deriving DecidableEq, Repr

/-- Return value of `fetchAllRecords` (`AllRecordsResult` in
`csw-client.ts`): records plus summary; note it contains no resume
offset. -/
structure AllRecordsResult where
  records : List CswRecord
  summary : AllSummary
deriving DecidableEq, Repr

/-- The result `fetchAllRecords` builds when its `while` loop stops
(either the cap condition at the top of the loop fails or a page reports
`hasMore = false`). -/
def stopResult {σ : Type} (allRecords : List CswRecord) (totalMatched : JsNum)
    (pageNumber : Nat) (obs : σ) (calls : List FetchArgsA) :
    Option AllRecordsResult × σ × List FetchArgsA :=
  (some ⟨allRecords, ⟨totalMatched, allRecords.length, pageNumber⟩⟩, obs, calls)

/-- The `while` loop of `fetchAllRecords`. `oracle` stands for `fetchPage`
(one network exchange); `onPage` is the side-effect-only page observer,
modelled by threading an observer state `σ`; the list of `FetchArgsA`
accumulates the arguments of the `fetchPage` calls made (instrumentation
recording the network requests); `fuel` bounds the number of iterations,
`none` meaning the loop was cut off before the code would have stopped. -/
def fetchAllLoop {σ : Type} (oracle : FetchArgsA → PageResult)
    (maxRecordsPerPage maxTotalRecords : JsNum)
    (onPage : PageResult → Nat → σ → σ) :
    Nat → List CswRecord → JsNum → Nat → JsNum → σ → List FetchArgsA →
      Option AllRecordsResult × σ × List FetchArgsA
  | 0, allRecords, _, pageNumber, totalMatched, obs, calls =>
    if jsLtB (JsNum.i allRecords.length) maxTotalRecords then (none, obs, calls)
    else stopResult allRecords totalMatched pageNumber obs calls
  | fuel + 1, allRecords, startPosition, pageNumber, totalMatched, obs, calls =>
    if jsLtB (JsNum.i allRecords.length) maxTotalRecords then
      let args : FetchArgsA :=
        ⟨jsMin maxRecordsPerPage (jsSub maxTotalRecords (JsNum.i allRecords.length)),
         startPosition⟩
      let pageResult := oracle args
      let pageNumber' := pageNumber + 1
      let totalMatched' := pageResult.pagination.totalMatched
      let allRecords' := allRecords ++ pageResult.records
      let obs' := onPage pageResult pageNumber' obs
      let calls' := calls ++ [args]
      if pageResult.pagination.hasMore then
        fetchAllLoop oracle maxRecordsPerPage maxTotalRecords onPage fuel
          allRecords' pageResult.pagination.nextRecord pageNumber'
          totalMatched' obs' calls'
      else stopResult allRecords' totalMatched' pageNumber' obs' calls'
    else stopResult allRecords totalMatched pageNumber obs calls

/-- `fetchAllRecords` of `csw-client.ts`: accumulate pages starting at
offset 1 until `hasMore` is false or the record cap is reached. -/
def fetchAllRecords {σ : Type} (oracle : FetchArgsA → PageResult)
    (maxRecordsPerPage maxTotalRecords : JsNum)
    (onPage : PageResult → Nat → σ → σ) (init : σ) (fuel : Nat) :
    Option AllRecordsResult × σ × List FetchArgsA :=
  fetchAllLoop oracle maxRecordsPerPage maxTotalRecords onPage fuel []
    (JsNum.i 1) 0 (JsNum.i 0) init []

/-- A page result used as a trivial oracle answer. -/
def emptyPage : PageResult :=
  ⟨[], ⟨JsNum.i 0, JsNum.i 0, JsNum.i 0, false⟩⟩

/-- C10: for every call to `fetchAllRecords` with a non-positive
`maxTotalRecords` cap, the loop body is never entered: no page is fetched
(the recorded call trace is empty) and the result is `records = []`,
`totalMatched = 0`, `totalFetched = 0`, `pagesRequested = 0`. -/
theorem claim10_nonpositive_cap {σ : Type} (oracle : FetchArgsA → PageResult)
    (perPage : JsNum) (c : Int) (hc : c ≤ 0)
    (onPage : PageResult → Nat → σ → σ) (init : σ) (fuel : Nat) :
    fetchAllRecords oracle perPage (JsNum.i c) onPage init fuel =
      (some ⟨[], ⟨JsNum.i 0, 0, 0⟩⟩, init, []) := by
  have hcond : ∀ b : Bool,
      (jsLtB (JsNum.i (([] : List CswRecord).length : Int)) (JsNum.i c)) = b →
      b = false := by
    intro b hb
    rw [← hb]
    simp only [jsLtB, List.length_nil, Nat.cast_zero, decide_eq_false_iff_not]
    omega
  unfold fetchAllRecords
  cases fuel with
  | zero =>
    simp only [fetchAllLoop]
    rw [if_neg]
    · rfl
    · intro h
      exact absurd (hcond _ h) (by simp)
  | succ fuel =>
    simp only [fetchAllLoop]
    rw [if_neg]
    · rfl
    · intro h
      exact absurd (hcond _ h) (by simp)

/-- Witness for C10 at cap `0` with a trivial oracle. -/
theorem claim10_witness :
    fetchAllRecords (fun _ => emptyPage) (JsNum.i 100) (JsNum.i 0)
      (fun _ _ (s : Unit) => s) () 5 =
      (some ⟨[], ⟨JsNum.i 0, 0, 0⟩⟩, (), []) :=
  claim10_nonpositive_cap (fun _ => emptyPage) (JsNum.i 100) 0 (by decide)
    (fun _ _ (s : Unit) => s) () 5

/-- Scenario-A server: every page reports `matched=250, returned=100,
next=101, hasMore=true` and carries 100 records. -/
def scenarioAOracle : FetchArgsA → PageResult := fun _ =>
  ⟨List.replicate 100 ⟨none, none, none⟩,
   ⟨JsNum.i 250, JsNum.i 100, JsNum.i 101, true⟩⟩

/-- Same server except `nextRecord = 102`. -/
def scenarioBOracle : FetchArgsA → PageResult := fun _ =>
  ⟨List.replicate 100 ⟨none, none, none⟩,
   ⟨JsNum.i 250, JsNum.i 100, JsNum.i 102, true⟩⟩

/-- C5 (counterexample): the return value of `fetchAllRecords` does NOT
expose the next offset to resume from: two servers that differ only in the
reported `nextRecord` of the last fetched page (101 vs 102, both with
`hasMore = true` when the record cap 100 stops the loop early) produce
identical return values, so no resume offset is recoverable from the
returned records-plus-summary. -/
theorem claim5_counterexample :
    (fetchAllRecords scenarioAOracle (JsNum.i 100) (JsNum.i 100)
        (fun _ _ (s : Unit) => s) () 3).1 =
      (fetchAllRecords scenarioBOracle (JsNum.i 100) (JsNum.i 100)
        (fun _ _ (s : Unit) => s) () 3).1 ∧
    (scenarioAOracle ⟨JsNum.i 100, JsNum.i 1⟩).pagination.nextRecord ≠
      (scenarioBOracle ⟨JsNum.i 100, JsNum.i 1⟩).pagination.nextRecord := by
  exact ⟨by decide, by decide⟩

/-- C5 (amended): on an early stop due to the record cap the exact next
offset is exposed only through the `onPage` observation callback, not
through the return value: against the scenario-A server
(`matched=250, returned=100, next=101`) with `maxTotalRecords = 100`, the
caller receives 100 records, `pagesRequested = 1`, a summary without any
offset field, and an `onPage` observer that recorded the page's
`nextRecord` ends holding 101. -/
theorem claim5_resume_via_onPage :
    fetchAllRecords scenarioAOracle (JsNum.i 100) (JsNum.i 100)
      (fun pr _ _ => pr.pagination.nextRecord) (JsNum.i 0) 3 =
      (some ⟨List.replicate 100 ⟨none, none, none⟩, ⟨JsNum.i 250, 100, 1⟩⟩,
       JsNum.i 101, [⟨JsNum.i 100, JsNum.i 1⟩]) := by
  decide

/-- The record the consistent server model serves at 1-based index `idx`;
records are served in ascending index order, and the index order is the
server's ascending modification-date order. -/
def serverRecord (idx : Nat) : CswRecord :=
  ⟨none, some (Nat.repr idx), none⟩

/-- One page of the consistent server model: at 1-based position `pos` it
serves the next `min p (n + 1 - pos)` of its `n` records contiguously, with
`nextRecord` pointing just past the returned page and 0 after the last
page, and the pagination attributes consistent with `n`. -/
def serverPage (p n pos : Nat) : PageResult :=
  let k := min p (n + 1 - pos)
  ⟨(List.range' pos k).map serverRecord,
   ⟨JsNum.i n, JsNum.i k,
    if pos + k ≤ n then JsNum.i (pos + k) else JsNum.i 0,
    decide (pos + k ≤ n)⟩⟩

/-- The consistent server model of C6, as a `fetchPage` oracle. -/
def serverModel (p n : Nat) (args : FetchArgsA) : PageResult :=
  match args.startPosition with
  | JsNum.i v =>
    if 1 ≤ v then serverPage p n v.toNat
    else ⟨[], ⟨JsNum.i n, JsNum.i 0, JsNum.i 0, false⟩⟩
  | _ => ⟨[], ⟨JsNum.i n, JsNum.i 0, JsNum.i 0, false⟩⟩

theorem jsLtB_i_inf (v : Int) : jsLtB (JsNum.i v) JsNum.inf = true := rfl

theorem jsSub_inf_i (v : Int) : jsSub JsNum.inf (JsNum.i v) = JsNum.inf := rfl

theorem jsMin_i_inf (v : Int) : jsMin (JsNum.i v) JsNum.inf = JsNum.i v := rfl

theorem serverLoop_runs (p n : Nat) (hp : 1 ≤ p) :
    ∀ (fuel : Nat) (pos : Nat) (acc : List CswRecord) (pn : Nat) (tm : JsNum)
      (calls : List FetchArgsA),
      1 ≤ pos → pos ≤ n + 1 → n + 2 - pos ≤ fuel →
      ∃ (pn' : Nat) (calls' : List FetchArgsA),
        fetchAllLoop (serverModel p n) (JsNum.i p) JsNum.inf
            (fun _ _ (s : Unit) => s) fuel acc (JsNum.i pos) pn tm () calls =
          (some ⟨acc ++ (List.range' pos (n + 1 - pos)).map serverRecord,
                 ⟨JsNum.i n,
                  (acc ++ (List.range' pos (n + 1 - pos)).map serverRecord).length,
                  pn'⟩⟩, (), calls') := by
  intro fuel
  induction fuel with
  | zero => intro pos acc pn tm calls h1 h2 h3; omega
  | succ fuel ih =>
    intro pos acc pn tm calls h1 h2 h3
    simp only [fetchAllLoop, jsLtB_i_inf, if_true, jsSub_inf_i, jsMin_i_inf]
    have hsrv : serverModel p n ⟨JsNum.i (p : Int), JsNum.i (pos : Int)⟩ =
        serverPage p n pos := by
      unfold serverModel
      simp only []
      rw [if_pos (by exact_mod_cast h1), Int.toNat_natCast]
    rw [hsrv]
    simp only [serverPage]
    by_cases hmore : pos + min p (n + 1 - pos) ≤ n
    · have hk : min p (n + 1 - pos) = p := by
        rcases Nat.le_total p (n + 1 - pos) with h | h
        · exact Nat.min_eq_left h
        · rw [Nat.min_eq_right h] at hmore; omega
      rw [hk] at hmore ⊢
      rw [if_pos (by simp [hmore]), if_pos hmore]
      obtain ⟨pn', calls', hrec⟩ :=
        ih (pos + p) (acc ++ (List.range' pos p).map serverRecord) (pn + 1)
          (JsNum.i n) (calls ++ [⟨JsNum.i (p : Int), JsNum.i (pos : Int)⟩])
          (by omega) (by omega) (by omega)
      push_cast at hrec
      rw [hrec]
      refine ⟨pn', calls', ?_⟩
      have hjoin : (List.range' pos p).map serverRecord ++
          (List.range' (pos + p) (n + 1 - (pos + p))).map serverRecord =
          (List.range' pos (n + 1 - pos)).map serverRecord := by
        rw [← List.map_append]
        have harith : n + 1 - (pos + p) + p = n + 1 - pos := by omega
        have hr := List.range'_append pos p (n + 1 - (pos + p)) 1
        rw [Nat.one_mul, harith] at hr
        rw [hr]
      rw [List.append_assoc, hjoin]
    · have hk : min p (n + 1 - pos) = n + 1 - pos := by
        rcases Nat.le_total p (n + 1 - pos) with h | h
        · rw [Nat.min_eq_left h] at hmore; omega
        · exact Nat.min_eq_right h
      rw [hk] at hmore ⊢
      rw [if_neg (by simp [hmore])]
      refine ⟨pn + 1, calls ++ [⟨JsNum.i (p : Int), JsNum.i (pos : Int)⟩], ?_⟩
      rfl

/-- C6: for every page size `p ≥ 1` and total-matched count `n`, against
the consistent server model (ascending modification-date order, contiguous
pages, `nextRecord` just past the returned page and 0 after the last page),
`fetchAllRecords` starting at offset 1 with no caps terminates and its
records are exactly `serverRecord 1, …, serverRecord n` in ascending
order — every record in `[1, n]` exactly once. -/
theorem claim6_full_traversal (p n : Nat) (hp : 1 ≤ p) :
    ∃ r : AllRecordsResult,
      (fetchAllRecords (serverModel p n) (JsNum.i p) JsNum.inf
          (fun _ _ (s : Unit) => s) () (n + 1)).1 = some r ∧
      r.records = (List.range' 1 n).map serverRecord := by
  obtain ⟨pn', calls', h⟩ := serverLoop_runs p n hp (n + 1) 1 [] 0 (JsNum.i 0) []
    (le_refl 1) (by omega) (by omega)
  refine ⟨⟨[] ++ (List.range' 1 (n + 1 - 1)).map serverRecord,
    ⟨JsNum.i n, ([] ++ (List.range' 1 (n + 1 - 1)).map serverRecord).length, pn'⟩⟩,
    ?_, ?_⟩
  · unfold fetchAllRecords
    rw [Nat.cast_one] at h
    rw [h]
  · simp

/-- Witness for C6 at `p = 2`, `n = 5`. -/
theorem claim6_witness :
    ∃ r : AllRecordsResult,
      (fetchAllRecords (serverModel 2 5) (JsNum.i 2) JsNum.inf
          (fun _ _ (s : Unit) => s) () 6).1 = some r ∧
      r.records = (List.range' 1 5).map serverRecord :=
  claim6_full_traversal 2 5 (by decide)

/-- The in-progress part of the persisted cursor (`Cursor.pending` in
`sync.ts`). -/
structure Pending where
  startDate : String
  endDate : String
  startPosition : JsNum
deriving DecidableEq, Repr

/-- The persisted cursor of `sync.ts`: `lastRun` (last completed window
end) and the optional pending window. -/
structure Cursor where
  lastRun : Option String
  pending : Option Pending
deriving DecidableEq, Repr

/-- Arguments of one `fetchPage` call made by the sync loop. -/
structure FetchCall where
  startDate : String
  endDate : String
  maxRecords : Nat
  startPosition : JsNum
deriving DecidableEq, Repr

/-- `PAGE_SIZE` of `sync.ts`. -/
def PAGE_SIZE : Nat := 200

/-- The page loop of `main` in `sync.ts` (pure-oracle version): fetch up to
`pagesLeft` pages; on `hasMore = false` write the completed cursor; when
the budget is exhausted with `hasMore = true` write the pending cursor at
the page's `nextRecord`. Returns the trace of page fetches and the cursor
written (`none` when the loop never wrote, i.e. a zero budget). -/
def syncLoop (fetchPage : FetchCall → PageResult) (startDate endDate : String)
    (lastRun0 : Option String) :
    JsNum → Nat → List (FetchCall × PageResult) × Option Cursor
  | _, 0 => ([], none)
  | position, pagesLeft + 1 =>
    let call : FetchCall := ⟨startDate, endDate, PAGE_SIZE, position⟩
    let result := fetchPage call
    if !result.pagination.hasMore then
      ([(call, result)], some ⟨some endDate, none⟩)
    else if pagesLeft = 0 then
      ([(call, result)],
       some ⟨lastRun0, some ⟨startDate, endDate, result.pagination.nextRecord⟩⟩)
    else
      let rest := syncLoop fetchPage startDate endDate lastRun0
        result.pagination.nextRecord pagesLeft
      ((call, result) :: rest.1, rest.2)

/-- `main` of `sync.ts` (pure-oracle version): resolve the window and start
position from the cursor read at start (`pending` wins, else a new window
`lastRun → now`; `firstRunStart` stands for the 15-minute-lookback date
computed on a first-ever run), then run the page loop. -/
def syncMain (cursor : Cursor) (now firstRunStart : String) (maxPages : Nat)
    (fetchPage : FetchCall → PageResult) :
    List (FetchCall × PageResult) × Option Cursor :=
  let startDate :=
    match cursor.pending with
    | some p => p.startDate
    | none => cursor.lastRun.getD firstRunStart
  let endDate :=
    match cursor.pending with
    | some p => p.endDate
    | none => now
  let startPosition :=
    match cursor.pending with
    | some p => p.startPosition
    | none => JsNum.i 1
  syncLoop fetchPage startDate endDate cursor.lastRun startPosition maxPages

theorem getLast?_cons_of_ne_nil {α : Type} (a : α) {l : List α} (h : l ≠ []) :
    (a :: l).getLast? = l.getLast? := by
  cases l with
  | nil => exact absurd rfl h
  | cons b t => rfl

theorem syncLoop_spec (fp : FetchCall → PageResult) (startDate endDate : String)
    (lastRun0 : Option String) :
    ∀ (pagesLeft : Nat) (position : JsNum), 1 ≤ pagesLeft →
    (∀ cr ∈ (syncLoop fp startDate endDate lastRun0 position pagesLeft).1,
        cr.1.startDate = startDate ∧ cr.1.endDate = endDate ∧
        cr.1.maxRecords = PAGE_SIZE) ∧
    ((syncLoop fp startDate endDate lastRun0 position pagesLeft).1.head?.map
        (fun cr => cr.1.startPosition) = some position) ∧
    ∃ lastCall lastPage,
      (syncLoop fp startDate endDate lastRun0 position pagesLeft).1.getLast? =
        some (lastCall, lastPage) ∧
      (lastPage.pagination.hasMore = false →
        (syncLoop fp startDate endDate lastRun0 position pagesLeft).2 =
          some ⟨some endDate, none⟩) ∧
      (lastPage.pagination.hasMore = true →
        (syncLoop fp startDate endDate lastRun0 position pagesLeft).2 =
          some ⟨lastRun0,
            some ⟨startDate, endDate, lastPage.pagination.nextRecord⟩⟩) := by
  intro pagesLeft
  induction pagesLeft with
  | zero => intro position h; omega
  | succ k ih =>
    intro position _
    cases hm : (fp ⟨startDate, endDate, PAGE_SIZE, position⟩).pagination.hasMore with
    | false =>
      have hstep : syncLoop fp startDate endDate lastRun0 position (k + 1) =
          ([(⟨startDate, endDate, PAGE_SIZE, position⟩,
             fp ⟨startDate, endDate, PAGE_SIZE, position⟩)],
           some ⟨some endDate, none⟩) := by
        simp only [syncLoop]
        rw [hm]
        rfl
      rw [hstep]
      refine ⟨?_, rfl, _, _, rfl, fun _ => rfl, fun habs => ?_⟩
      · intro cr hcr
        simp only [List.mem_singleton] at hcr
        subst hcr
        exact ⟨rfl, rfl, rfl⟩
      · rw [hm] at habs
        exact absurd habs (by simp)
    | true =>
      by_cases hk : k = 0
      · subst hk
        have hstep : syncLoop fp startDate endDate lastRun0 position 1 =
            ([(⟨startDate, endDate, PAGE_SIZE, position⟩,
               fp ⟨startDate, endDate, PAGE_SIZE, position⟩)],
             some ⟨lastRun0, some ⟨startDate, endDate,
               (fp ⟨startDate, endDate, PAGE_SIZE,
                  position⟩).pagination.nextRecord⟩⟩) := by
          simp only [syncLoop]
          rw [hm]
          rfl
        rw [hstep]
        refine ⟨?_, rfl, _, _, rfl, fun habs => ?_, fun _ => rfl⟩
        · intro cr hcr
          simp only [List.mem_singleton] at hcr
          subst hcr
          exact ⟨rfl, rfl, rfl⟩
        · rw [hm] at habs
          exact absurd habs (by simp)
      · have hstep : syncLoop fp startDate endDate lastRun0 position (k + 1) =
            ((⟨startDate, endDate, PAGE_SIZE, position⟩,
              fp ⟨startDate, endDate, PAGE_SIZE, position⟩) ::
              (syncLoop fp startDate endDate lastRun0
                (fp ⟨startDate, endDate, PAGE_SIZE,
                   position⟩).pagination.nextRecord k).1,
             (syncLoop fp startDate endDate lastRun0
                (fp ⟨startDate, endDate, PAGE_SIZE,
                   position⟩).pagination.nextRecord k).2) := by
          simp only [syncLoop]
          rw [hm, if_neg hk]
          rfl
        rw [hstep]
        obtain ⟨hall, hhead, lastCall, lastPage, hlast, hfalse, htrue⟩ :=
          ih (fp ⟨startDate, endDate, PAGE_SIZE, position⟩).pagination.nextRecord
            (by omega)
        have hne : (syncLoop fp startDate endDate lastRun0
            (fp ⟨startDate, endDate, PAGE_SIZE,
               position⟩).pagination.nextRecord k).1 ≠ [] := by
          intro hnil
          rw [hnil] at hhead
          simp at hhead
        have hlast2 : ((⟨startDate, endDate, PAGE_SIZE, position⟩,
            fp ⟨startDate, endDate, PAGE_SIZE, position⟩) ::
            (syncLoop fp startDate endDate lastRun0
              (fp ⟨startDate, endDate, PAGE_SIZE,
                 position⟩).pagination.nextRecord k).1).getLast? =
            some (lastCall, lastPage) := by
          rw [getLast?_cons_of_ne_nil _ hne]
          exact hlast
        refine ⟨?_, rfl, lastCall, lastPage, hlast2, hfalse, htrue⟩
        intro cr hcr
        rcases List.mem_cons.mp hcr with hcr | hcr
        · subst hcr; exact ⟨rfl, rfl, rfl⟩
        · exact hall cr hcr

/-- C2: for every sync invocation whose cursor has `pending` set and a
positive page budget: every request uses exactly the pending window's
`startDate` and `endDate` (the window's end is never advanced mid-window)
and the first request starts at `pending.startPosition`; if the final
fetched page reports `hasMore = false` the cursor written is
`{lastRun: endDate, pending: null}`; if the budget is exhausted while
`hasMore = true` the cursor written keeps `lastRun` unchanged and persists
the same window with `startPosition` equal to the last page's
`nextRecord`. -/
theorem claim2_pending_window (cursor : Cursor) (now firstRunStart : String)
    (maxPages : Nat) (fp : FetchCall → PageResult) (p : Pending)
    (hpend : cursor.pending = some p) (hmp : 1 ≤ maxPages) :
    (∀ cr ∈ (syncMain cursor now firstRunStart maxPages fp).1,
        cr.1.startDate = p.startDate ∧ cr.1.endDate = p.endDate ∧
        cr.1.maxRecords = PAGE_SIZE) ∧
    ((syncMain cursor now firstRunStart maxPages fp).1.head?.map
        (fun cr => cr.1.startPosition) = some p.startPosition) ∧
    ∃ lastCall lastPage,
      (syncMain cursor now firstRunStart maxPages fp).1.getLast? =
        some (lastCall, lastPage) ∧
      (lastPage.pagination.hasMore = false →
        (syncMain cursor now firstRunStart maxPages fp).2 =
          some ⟨some p.endDate, none⟩) ∧
      (lastPage.pagination.hasMore = true →
        (syncMain cursor now firstRunStart maxPages fp).2 =
          some ⟨cursor.lastRun,
            some ⟨p.startDate, p.endDate, lastPage.pagination.nextRecord⟩⟩) := by
  have hmain : syncMain cursor now firstRunStart maxPages fp =
      syncLoop fp p.startDate p.endDate cursor.lastRun p.startPosition maxPages := by
    unfold syncMain
    rw [hpend]
  rw [hmain]
  exact syncLoop_spec fp p.startDate p.endDate cursor.lastRun maxPages
    p.startPosition hmp

def c2Pending : Pending :=
  ⟨"2026-01-10T00:00:00Z", "2026-01-20T00:00:00Z", JsNum.i 201⟩

def c2Cursor : Cursor := ⟨some "2026-01-01T00:00:00Z", some c2Pending⟩

def c2Oracle : FetchCall → PageResult :=
  fun _ => ⟨[], ⟨JsNum.i 150, JsNum.i 150, JsNum.i 0, false⟩⟩

/-- Witness for C2: an in-progress cursor, a one-page budget and a server
whose page completes the window. -/
theorem claim2_witness :
    (∀ cr ∈ (syncMain c2Cursor "2026-02-01T00:00:00Z" "2026-01-31T23:45:00Z" 1
        c2Oracle).1,
        cr.1.startDate = c2Pending.startDate ∧ cr.1.endDate = c2Pending.endDate ∧
        cr.1.maxRecords = PAGE_SIZE) ∧
    ((syncMain c2Cursor "2026-02-01T00:00:00Z" "2026-01-31T23:45:00Z" 1
        c2Oracle).1.head?.map
        (fun cr => cr.1.startPosition) = some c2Pending.startPosition) ∧
    ∃ lastCall lastPage,
      (syncMain c2Cursor "2026-02-01T00:00:00Z" "2026-01-31T23:45:00Z" 1
          c2Oracle).1.getLast? = some (lastCall, lastPage) ∧
      (lastPage.pagination.hasMore = false →
        (syncMain c2Cursor "2026-02-01T00:00:00Z" "2026-01-31T23:45:00Z" 1
            c2Oracle).2 = some ⟨some c2Pending.endDate, none⟩) ∧
      (lastPage.pagination.hasMore = true →
        (syncMain c2Cursor "2026-02-01T00:00:00Z" "2026-01-31T23:45:00Z" 1
            c2Oracle).2 = some ⟨c2Cursor.lastRun,
          some ⟨c2Pending.startDate, c2Pending.endDate,
            lastPage.pagination.nextRecord⟩⟩) :=
  claim2_pending_window c2Cursor "2026-02-01T00:00:00Z" "2026-01-31T23:45:00Z" 1
    c2Oracle c2Pending rfl (by decide)

/-- The page loop of `main` in `sync.ts` with a fallible page fetch
(`fetchPage` throws `TransportError`/`ExtractionError`): an error
propagates out of the loop before any cursor write. `Except.ok none`
means the loop finished without writing (zero page budget). -/
def syncLoopE (fetchPage : FetchCall → Except String PageResult)
    (startDate endDate : String) (lastRun0 : Option String) :
    JsNum → Nat → Except String (Option Cursor)
  | _, 0 => Except.ok none
  | position, pagesLeft + 1 =>
    let call : FetchCall := ⟨startDate, endDate, PAGE_SIZE, position⟩
    match fetchPage call with
    | Except.error e => Except.error e
    | Except.ok result =>
      if !result.pagination.hasMore then
        Except.ok (some ⟨some endDate, none⟩)
      else if pagesLeft = 0 then
        Except.ok (some ⟨lastRun0,
          some ⟨startDate, endDate, result.pagination.nextRecord⟩⟩)
      else
        syncLoopE fetchPage startDate endDate lastRun0
          result.pagination.nextRecord pagesLeft

/-- `main` of `sync.ts` with a fallible page fetch. -/
def syncMainE (cursor : Cursor) (now firstRunStart : String) (maxPages : Nat)
    (fetchPage : FetchCall → Except String PageResult) :
    Except String (Option Cursor) :=
  let startDate :=
    match cursor.pending with
    | some p => p.startDate
    | none => cursor.lastRun.getD firstRunStart
  let endDate :=
    match cursor.pending with
    | some p => p.endDate
    | none => now
  let startPosition :=
    match cursor.pending with
    | some p => p.startPosition
    | none => JsNum.i 1
  syncLoopE fetchPage startDate endDate cursor.lastRun startPosition maxPages

/-- The cursor persisted after one sync invocation that started with
`stored`: the written cursor when the run wrote one, `stored` unchanged
when the run wrote none or aborted with an error (the error propagates out
of `main` and the process exits without reaching `writeCursor`). -/
def persistedAfterSync (stored : Cursor) (now firstRunStart : String)
    (maxPages : Nat) (fetchPage : FetchCall → Except String PageResult) :
    Cursor :=
  match syncMainE stored now firstRunStart maxPages fetchPage with
  | Except.ok (some w) => w
  | Except.ok none => stored
  | Except.error _ => stored

/-- C3 (amended, sync part): whenever a page fetch fails during a sync
invocation (the loop result is an error), no cursor write occurs and the
persisted cursor after the invocation equals the cursor before it. -/
theorem claim3_sync_error_keeps_cursor (stored : Cursor)
    (now firstRunStart : String) (maxPages : Nat)
    (fetchPage : FetchCall → Except String PageResult) (e : String)
    (herr : syncMainE stored now firstRunStart maxPages fetchPage =
      Except.error e) :
    persistedAfterSync stored now firstRunStart maxPages fetchPage = stored := by
  unfold persistedAfterSync
  rw [herr]

/-- Witness for C3 (amended) with an in-progress cursor and a fetch that
fails with a transport error on the first page. -/
theorem claim3_witness :
    syncMainE c2Cursor "2026-02-01T00:00:00Z" "2026-01-31T23:45:00Z" 1
      (fun _ => Except.error "CSW request failed: 500") =
      Except.error "CSW request failed: 500" ∧
    persistedAfterSync c2Cursor "2026-02-01T00:00:00Z" "2026-01-31T23:45:00Z" 1
      (fun _ => Except.error "CSW request failed: 500") = c2Cursor :=
  ⟨rfl, claim3_sync_error_keeps_cursor c2Cursor "2026-02-01T00:00:00Z"
    "2026-01-31T23:45:00Z" 1 (fun _ => Except.error "CSW request failed: 500")
    "CSW request failed: 500" rfl⟩

/-- The `scheduled` handler of `src/worker.ts`: read `lastRun` from KV
(falling back to the 24-hour `lookback` on a first run), write the new
`lastRun = endDate` to KV, THEN run the query. Returns the persisted
`lastRun` after the invocation together with the query outcome. -/
def workerScheduled (storedLastRun : Option String) (now lookback : String)
    (query : String → String → Except String AllRecordsResult) :
    Option String × Except String AllRecordsResult :=
  let startDate := storedLastRun.getD lookback
  let stored' := some now
  (stored', query startDate now)

/-- C3 (counterexample): the claim fails for the scheduled worker entry
point: `worker.ts` persists the new `lastRun` BEFORE fetching, so an
invocation whose fetch fails still changes the persisted harvest state
(the pre-invocation `lastRun` is lost). -/
theorem claim3_counterexample :
    (workerScheduled (some "2026-01-01T00:00:00Z") "2026-02-01T00:00:00Z"
        "2026-01-31T00:00:00Z"
        (fun _ _ => Except.error "CSW request failed: 500")).2 =
      Except.error "CSW request failed: 500" ∧
    (workerScheduled (some "2026-01-01T00:00:00Z") "2026-02-01T00:00:00Z"
        "2026-01-31T00:00:00Z"
        (fun _ _ => Except.error "CSW request failed: 500")).1 ≠
      some "2026-01-01T00:00:00Z" := by
  exact ⟨rfl, by decide⟩

/-- JSON documents, as far as the persisted cursor representation needs
them. `writeCursor` emits `JSON.stringify` of this document and
`readCursor` applies `JSON.parse`; the string layer is the standard
JSON encoding of this AST. -/
inductive Json where
  | null : Json
  | str (s : String) : Json
  | num (n : JsNum) : Json
  | obj (fields : List (String × Json)) : Json

/-- The JSON document `writeCursor` produces for the pending part. -/
def encodePending (p : Pending) : Json :=
  Json.obj [("startDate", Json.str p.startDate), ("endDate", Json.str p.endDate),
            ("startPosition", Json.num p.startPosition)]

/-- The JSON document `writeCursor` produces for a cursor:
`{ lastRun: string|null, pending: {...}|null }`. -/
def encodeCursor (c : Cursor) : Json :=
  Json.obj
    [("lastRun", match c.lastRun with | some s => Json.str s | none => Json.null),
     ("pending", match c.pending with | some p => encodePending p | none => Json.null)]

/-- Property access on a parsed JSON object. -/
def jsonLookup (fields : List (String × Json)) (key : String) : Option Json :=
  (fields.find? (fun f => f.1 = key)).map (fun f => f.2)

/-- Reading the pending shape back out of a parsed JSON document
(`readCursor` casts the parsed value to `Cursor`; this is the shape that
cast relies on). -/
def decodePending : Json → Option Pending
  | Json.obj fields =>
    match jsonLookup fields "startDate", jsonLookup fields "endDate",
        jsonLookup fields "startPosition" with
    | some (Json.str sd), some (Json.str ed), some (Json.num sp) =>
      some ⟨sd, ed, sp⟩
    | _, _, _ => none
  | _ => none

/-- Reading a cursor back out of a parsed JSON document. -/
def decodeCursor : Json → Option Cursor
  | Json.obj fields =>
    match jsonLookup fields "lastRun", jsonLookup fields "pending" with
    | some Json.null, some Json.null => some ⟨none, none⟩
    | some (Json.str s), some Json.null => some ⟨some s, none⟩
    | some Json.null, some pj => (decodePending pj).map (fun p => ⟨none, some p⟩)
    | some (Json.str s), some pj => (decodePending pj).map (fun p => ⟨some s, some p⟩)
    | _, _ => none
  | _ => none

/-- C9: serializing any cursor of either shape to its persisted JSON form
and parsing it back reproduces the identical cursor state, all fields
equal. -/
theorem claim9_cursor_roundtrip (c : Cursor) :
    decodeCursor (encodeCursor c) = some c := by
  obtain ⟨lr, pd⟩ := c
  cases lr <;> cases pd <;> rfl

theorem preSplit {α : Type} (P : List α) :
    ∀ (A B : List α), P <+: A ++ B →
      P <+: A ∨ (A <+: P ∧ P.drop A.length <+: B) := by
  intro A
  induction A generalizing P with
  | nil =>
    intro B h
    right
    exact ⟨List.nil_prefix, by simpa using h⟩
  | cons a A' ih =>
    intro B h
    cases P with
    | nil => left; exact List.nil_prefix
    | cons q P' =>
      rw [List.cons_append, List.cons_prefix_cons] at h
      obtain ⟨hqa, h'⟩ := h
      rcases ih P' B h' with h2 | ⟨h2, h3⟩
      · left
        rw [List.cons_prefix_cons]
        exact ⟨hqa, h2⟩
      · right
        refine ⟨?_, ?_⟩
        · rw [List.cons_prefix_cons]
          exact ⟨hqa.symm, h2⟩
        · simpa using h3

theorem infixConsSplit {α : Type} (P L : List α) (a : α) :
    P <:+: a :: L → P <+: a :: L ∨ P <:+: L := by
  rintro ⟨u, v, huv⟩
  cases u with
  | nil =>
    left
    exact ⟨v, by simpa using huv⟩
  | cons b u' =>
    right
    refine ⟨u', v, ?_⟩
    have := huv
    rw [List.cons_append, List.cons_append] at this
    exact (List.cons.injEq _ _ _ _).mp this |>.2

theorem notInfixAppendHead (P Y : List Char) (c : Char)
    (hY : Y.head? = some c) (hc : c ∉ P) (hYl : ¬ P <:+: Y) :
    ∀ (X : List Char), ¬ P <:+: X → ¬ P <:+: (X ++ Y) := by
  intro X
  induction X with
  | nil => intro _ h; exact hYl (by simpa using h)
  | cons x X' ih =>
    intro hX h
    rw [List.cons_append] at h
    rcases infixConsSplit P (X' ++ Y) x h with hpre | hinf
    · rw [← List.cons_append] at hpre
      rcases preSplit P (x :: X') Y hpre with h2 | ⟨h2, h3⟩
      · exact hX h2.isInfix
      · by_cases hlen : P.length ≤ (x :: X').length
        · have : x :: X' = P := h2.eq_of_length (le_antisymm (List.IsPrefix.length_le h2) hlen)
          exact hX (this ▸ h2.isInfix)
        · push_neg at hlen
          have hdne : P.drop (x :: X').length ≠ [] := by
            intro hnil
            rw [List.drop_eq_nil_iff] at hnil
            omega
          obtain ⟨c', rest, hd⟩ := List.exists_cons_of_ne_nil hdne
          have hcY : Y.head? = some c' := by
            obtain ⟨t, ht⟩ := h3
            rw [← ht, hd, List.cons_append]
            rfl
          have hcP : c' ∈ P := by
            apply List.mem_of_mem_drop (n := (x :: X').length)
            rw [hd]; exact List.mem_cons_self c' rest
          rw [hY] at hcY
          injection hcY with hcc
          exact hc (hcc ▸ hcP)
    · exact ih (fun hx => hX (List.infix_cons hx)) hinf

theorem notInfixAppendLast (P X Y : List Char) (c : Char)
    (hX : X.getLast? = some c) (hc : c ∉ P)
    (hXl : ¬ P <:+: X) (hYl : ¬ P <:+: Y) : ¬ P <:+: (X ++ Y) := by
  intro h
  have h' : P.reverse <:+: Y.reverse ++ X.reverse := by
    rw [← List.reverse_append]
    exact List.reverse_infix.mpr h
  have hhead : X.reverse.head? = some c := by
    rw [List.head?_reverse]; exact hX
  have hcP : c ∉ P.reverse := fun hm => hc (List.mem_reverse.mp hm)
  have hXr : ¬ P.reverse <:+: X.reverse := fun hm =>
    hXl (List.reverse_infix.mp hm)
  have hYr : ¬ P.reverse <:+: Y.reverse := fun hm =>
    hYl (List.reverse_infix.mp hm)
  exact notInfixAppendHead P.reverse X.reverse c hhead hcP hXr Y.reverse hYr h'

theorem head?_append_left {α : Type} (X Y : List α) (c : α)
    (h : X.head? = some c) : (X ++ Y).head? = some c := by
  cases X with
  | nil => simp at h
  | cons a t =>
    rw [List.cons_append]
    simpa using h

theorem digitChar_isDigit (k : Nat) (hk : k < 10) :
    (Nat.digitChar k).isDigit = true := by
  interval_cases k <;> decide

theorem toDigitsCore_digits (fuel : Nat) :
    ∀ (n : Nat) (acc : List Char), (∀ c ∈ acc, c.isDigit = true) →
      ∀ c ∈ Nat.toDigitsCore 10 fuel n acc, c.isDigit = true := by
  induction fuel with
  | zero => intro n acc hacc; simpa [Nat.toDigitsCore] using hacc
  | succ fuel ih =>
    intro n acc hacc c hc
    rw [Nat.toDigitsCore] at hc
    split at hc
    · rcases List.mem_cons.mp hc with h | h
      · subst h
        exact digitChar_isDigit _ (Nat.mod_lt _ (by omega))
      · exact hacc c h
    · refine ih (n / 10) (Nat.digitChar (n % 10) :: acc) ?_ c hc
      intro c' hc'
      rcases List.mem_cons.mp hc' with h | h
      · subst h
        exact digitChar_isDigit _ (Nat.mod_lt _ (by omega))
      · exact hacc c' h

theorem repr_digits (n : Nat) : ∀ c ∈ (Nat.repr n).data, c.isDigit = true := by
  intro c hc
  have hdata : (Nat.repr n).data = Nat.toDigits 10 n := rfl
  rw [hdata, Nat.toDigits] at hc
  exact toDigitsCore_digits (n + 1) n [] (by intro c h; simp at h) c hc

theorem toDigitsCore_ne_nil_of_acc (fuel : Nat) :
    ∀ (n : Nat) (acc : List Char), acc ≠ [] →
      Nat.toDigitsCore 10 fuel n acc ≠ [] := by
  induction fuel with
  | zero => intro n acc hacc; simpa [Nat.toDigitsCore] using hacc
  | succ fuel ih =>
    intro n acc hacc
    rw [Nat.toDigitsCore]
    split
    · simp
    · exact ih (n / 10) (Nat.digitChar (n % 10) :: acc) (by simp)

theorem repr_ne_nil (n : Nat) : (Nat.repr n).data ≠ [] := by
  have hdata : (Nat.repr n).data = Nat.toDigits 10 n := rfl
  rw [hdata, Nat.toDigits, Nat.toDigitsCore]
  split
  · simp
  · exact toDigitsCore_ne_nil_of_acc n (n / 10) (Nat.digitChar (n % 10) :: []) (by simp)

theorem repr_head_digit (n : Nat) :
    ∃ c, (Nat.repr n).data.head? = some c ∧ c.isDigit = true := by
  obtain ⟨c, rest, hd⟩ := List.exists_cons_of_ne_nil (repr_ne_nil n)
  refine ⟨c, by rw [hd]; rfl, ?_⟩
  exact repr_digits n c (by rw [hd]; exact List.mem_cons_self c rest)

/-- Head of the GetRecords template, up to the `maxRecords` attribute
value. -/
def xmlHead : String := "<?xml version=\"1.0\"?>\n<csw:GetRecords xmlns:csw=\"http://www.opengis.net/cat/csw/2.0.2\" xmlns:ogc=\"http://www.opengis.net/ogc\" service=\"CSW\" version=\"2.0.2\" resultType=\"results\" outputSchema=\"http://www.isotc211.org/2005/gmd\" maxRecords=\""

/-- Template text between the `maxRecords` and `startPosition` values. -/
def xmlMid1 : String := "\" startPosition=\""

/-- Template text between the `startPosition` value and the filter. -/
def xmlMid2 : String := "\">\n  <csw:Query typeNames=\"csw:Record\">\n    <csw:ElementSetName>full</csw:ElementSetName>\n    <csw:Constraint version=\"1.1.0\">\n      <ogc:Filter>\n        "

/-- Template text after the filter (constraint close, SortBy, query
close). -/
def xmlTail : String := "\n      </ogc:Filter>\n    </csw:Constraint>\n    <ogc:SortBy>\n      <ogc:SortProperty>\n        <ogc:PropertyName>apiso:Modified</ogc:PropertyName>\n        <ogc:SortOrder>ASC</ogc:SortOrder>\n      </ogc:SortProperty>\n    </ogc:SortBy>\n  </csw:Query>\n</csw:GetRecords>"

/-- The lower-bound filter text before the `startDate` value. -/
def sfA : String := "<ogc:PropertyIsGreaterThanOrEqualTo>\n          <ogc:PropertyName>apiso:Modified</ogc:PropertyName>\n          <ogc:Literal>"

/-- The lower-bound filter text after the `startDate` value. -/
def sfB : String := "</ogc:Literal>\n        </ogc:PropertyIsGreaterThanOrEqualTo>"

/-- `startFilter` of `buildGetRecordsXml`: the `modified >= startDate`
bound (`PropertyIsGreaterThanOrEqualTo`). -/
def startFilterStr (startDate : String) : String := sfA ++ startDate ++ sfB

/-- The conjunction opener of the two-sided filter. -/
def andA : String := "<ogc:And>\n        "

/-- The conjunction text between `startFilter` and the `endDate` value
(opens `PropertyIsLessThan`). -/
def andB : String := "\n        <ogc:PropertyIsLessThan>\n          <ogc:PropertyName>apiso:Modified</ogc:PropertyName>\n          <ogc:Literal>"

/-- The conjunction text after the `endDate` value. -/
def andC : String := "</ogc:Literal>\n        </ogc:PropertyIsLessThan>\n        </ogc:And>"

/-- The `filter` local of `buildGetRecordsXml`: when `endDate` is truthy
(present and non-empty, per the JavaScript `if (endDate)`) the conjunction
of both bounds inside `ogc:And`, otherwise the lower bound alone. -/
def filterStr (startDate : String) (endDate : Option String) : String :=
  match endDate with
  | some e =>
    if e = "" then startFilterStr startDate
    else andA ++ startFilterStr startDate ++ andB ++ e ++ andC
  | none => startFilterStr startDate

/-- `buildGetRecordsXml` of `csw-client.ts` (TS version with the optional
exclusive `endDate`): the fixed GetRecords template with `maxRecords`,
`startPosition` and the date filter interpolated. -/
def buildGetRecordsXml (startDate : String) (endDate : Option String)
    (maxRecords startPosition : Nat) : String :=
  xmlHead ++ Nat.repr maxRecords ++ xmlMid1 ++ Nat.repr startPosition ++
    xmlMid2 ++ filterStr startDate endDate ++ xmlTail

/-- Character-level substring test (decidable containment). -/
def strContains (s pat : String) : Bool := decide (pat.data <:+: s.data)

/-- The tag name of the upper date bound. -/
def upperBoundTag : String := "ogc:PropertyIsLessThan"

/-- The ascending sort block of the template. -/
def sortByBlock : String := "<ogc:SortBy>\n      <ogc:SortProperty>\n        <ogc:PropertyName>apiso:Modified</ogc:PropertyName>\n        <ogc:SortOrder>ASC</ogc:SortOrder>\n      </ogc:SortProperty>\n    </ogc:SortBy>"

theorem filterStr_none (s : String) : filterStr s none = startFilterStr s := rfl

theorem filterStr_some (s e' : String) (he' : e' ≠ "") :
    filterStr s (some e') =
      andA ++ startFilterStr s ++ andB ++ e' ++ andC := by
  simp only [filterStr]
  rw [if_neg he']

set_option maxRecDepth 400000 in
theorem upperTag_not_infix_repr (n : Nat) :
    ¬ upperBoundTag.data <:+: (Nat.repr n).data := by
  intro h
  have hy : ('y' : Char) ∈ (Nat.repr n).data := h.subset (by decide)
  have hd := repr_digits n 'y' hy
  exact absurd hd (by decide)

theorem digit_not_in_upperTag (c : Char) (hd : c.isDigit = true) :
    c ∉ upperBoundTag.data := by
  intro hmem
  have hall : ∀ x ∈ upperBoundTag.data, x.isDigit = false := by decide
  rw [hall c hmem] at hd
  exact absurd hd (by simp)

set_option maxRecDepth 1000000 in
theorem upperTag_not_in_build_none (s : String) (m p : Nat)
    (hy : ('y' : Char) ∉ s.data) :
    ¬ upperBoundTag.data <:+: (buildGetRecordsXml s none m p).data := by
  have hBd : (buildGetRecordsXml s none m p).data =
      xmlHead.data ++ ((Nat.repr m).data ++ (xmlMid1.data ++ ((Nat.repr p).data ++
        ((xmlMid2.data ++ sfA.data) ++ (s.data ++ (sfB.data ++ xmlTail.data)))))) := by
    simp [buildGetRecordsXml, filterStr, startFilterStr, String.data_append,
      List.append_assoc]
  rw [hBd]
  have hs : ¬ upperBoundTag.data <:+: s.data := by
    intro h
    exact hy (h.subset (by decide))
  have h6 : ¬ upperBoundTag.data <:+: (s.data ++ (sfB.data ++ xmlTail.data)) :=
    notInfixAppendHead upperBoundTag.data (sfB.data ++ xmlTail.data) '<'
      (head?_append_left _ _ _ (by decide)) (by decide) (by decide) s.data hs
  have h5 : ¬ upperBoundTag.data <:+:
      ((xmlMid2.data ++ sfA.data) ++ (s.data ++ (sfB.data ++ xmlTail.data))) :=
    notInfixAppendLast upperBoundTag.data (xmlMid2.data ++ sfA.data) _ '>'
      (by decide) (by decide) (by decide) h6
  have h4 : ¬ upperBoundTag.data <:+: ((Nat.repr p).data ++
      ((xmlMid2.data ++ sfA.data) ++ (s.data ++ (sfB.data ++ xmlTail.data)))) :=
    notInfixAppendHead upperBoundTag.data _ '"'
      (head?_append_left _ _ _ (head?_append_left _ _ _ (by decide)))
      (by decide) h5 (Nat.repr p).data (upperTag_not_infix_repr p)
  obtain ⟨cp, hcp, hdp⟩ := repr_head_digit p
  have h3 : ¬ upperBoundTag.data <:+: (xmlMid1.data ++ ((Nat.repr p).data ++
      ((xmlMid2.data ++ sfA.data) ++ (s.data ++ (sfB.data ++ xmlTail.data))))) :=
    notInfixAppendHead upperBoundTag.data _ cp
      (head?_append_left _ _ _ hcp) (digit_not_in_upperTag cp hdp) h4
      xmlMid1.data (by decide)
  have h2 : ¬ upperBoundTag.data <:+: ((Nat.repr m).data ++ (xmlMid1.data ++
      ((Nat.repr p).data ++ ((xmlMid2.data ++ sfA.data) ++
        (s.data ++ (sfB.data ++ xmlTail.data)))))) :=
    notInfixAppendHead upperBoundTag.data _ '"'
      (head?_append_left _ _ _ (by decide)) (by decide) h3
      (Nat.repr m).data (upperTag_not_infix_repr m)
  obtain ⟨cm, hcm, hdm⟩ := repr_head_digit m
  exact notInfixAppendHead upperBoundTag.data _ cm
    (head?_append_left _ _ _ hcm) (digit_not_in_upperTag cm hdm) h2
    xmlHead.data (by decide)

set_option maxRecDepth 1000000 in
/-- C7: `buildGetRecordsXml` is deterministic (equal inputs give a
byte-identical body); its body always contains the full lower bound
`modified >= startDate` (the `PropertyIsGreaterThanOrEqualTo` block with
the start date interpolated); it contains the conjoined upper bound
`PropertyIsLessThan` exactly when a (non-empty) `endDate` is provided; and
it always contains the ascending `SortBy` block on `apiso:Modified`.
The hypotheses restrict the interpolated dates to realistic values: the
start date does not itself contain the letter `y` (no ISO 8601 date does),
and a provided end date is non-empty (the JavaScript `if (endDate)` treats
`""` as absent). -/
theorem claim7_request_encoder (s : String) (e : Option String) (m p : Nat)
    (hy : ('y' : Char) ∉ s.data) (he : e ≠ some "") :
    (∀ s2 e2 m2 p2, s = s2 → e = e2 → m = m2 → p = p2 →
        buildGetRecordsXml s e m p = buildGetRecordsXml s2 e2 m2 p2) ∧
    strContains (buildGetRecordsXml s e m p) (startFilterStr s) = true ∧
    (strContains (buildGetRecordsXml s e m p) upperBoundTag = true ↔
      e.isSome = true) ∧
    strContains (buildGetRecordsXml s e m p) sortByBlock = true := by
  refine ⟨fun s2 e2 m2 p2 hs he2 hm hp => by rw [hs, he2, hm, hp], ?_, ?_, ?_⟩
  · rw [strContains]
    apply decide_eq_true
    cases e with
    | none =>
      refine ⟨xmlHead.data ++ (Nat.repr m).data ++ xmlMid1.data ++
        (Nat.repr p).data ++ xmlMid2.data, xmlTail.data, ?_⟩
      simp [buildGetRecordsXml, filterStr, String.data_append, List.append_assoc]
    | some e' =>
      have he' : e' ≠ "" := fun h => he (by rw [h])
      refine ⟨xmlHead.data ++ (Nat.repr m).data ++ xmlMid1.data ++
        (Nat.repr p).data ++ xmlMid2.data ++ andA.data,
        andB.data ++ e'.data ++ andC.data ++ xmlTail.data, ?_⟩
      rw [buildGetRecordsXml, filterStr_some s e' he']
      simp [String.data_append, List.append_assoc]
  · cases e with
    | none =>
      rw [strContains, decide_eq_false (upperTag_not_in_build_none s m p hy)]
      simp
    | some e' =>
      have he' : e' ≠ "" := fun h => he (by rw [h])
      have hcon : upperBoundTag.data <:+:
          (buildGetRecordsXml s (some e') m p).data := by
        have h1 : upperBoundTag.data <:+: andB.data := by decide
        have h2 : andB.data <:+: (buildGetRecordsXml s (some e') m p).data := by
          refine ⟨xmlHead.data ++ (Nat.repr m).data ++ xmlMid1.data ++
            (Nat.repr p).data ++ xmlMid2.data ++ andA.data ++ sfA.data ++
            s.data ++ sfB.data,
            e'.data ++ andC.data ++ xmlTail.data, ?_⟩
          rw [buildGetRecordsXml, filterStr_some s e' he']
          simp [startFilterStr, String.data_append, List.append_assoc]
        exact h1.trans h2
      rw [strContains, decide_eq_true hcon]
      simp
  · rw [strContains]
    apply decide_eq_true
    have h1 : sortByBlock.data <:+: xmlTail.data := by decide
    have h2 : xmlTail.data <:+: (buildGetRecordsXml s e m p).data := by
      refine ⟨xmlHead.data ++ (Nat.repr m).data ++ xmlMid1.data ++
        (Nat.repr p).data ++ xmlMid2.data ++ (filterStr s e).data, [], ?_⟩
      simp [buildGetRecordsXml, String.data_append, List.append_assoc]
    exact h1.trans h2

set_option maxRecDepth 400000 in
/-- Witness for C7 at ISO dates with both bounds, `maxRecords = 100`,
`startPosition = 1`. -/
theorem claim7_witness :
    (∀ s2 e2 m2 p2, "2026-01-21T00:00:00Z" = s2 →
        some "2026-02-01T00:00:00Z" = e2 → 100 = m2 → 1 = p2 →
        buildGetRecordsXml "2026-01-21T00:00:00Z"
          (some "2026-02-01T00:00:00Z") 100 1 =
          buildGetRecordsXml s2 e2 m2 p2) ∧
    strContains (buildGetRecordsXml "2026-01-21T00:00:00Z"
        (some "2026-02-01T00:00:00Z") 100 1)
      (startFilterStr "2026-01-21T00:00:00Z") = true ∧
    (strContains (buildGetRecordsXml "2026-01-21T00:00:00Z"
        (some "2026-02-01T00:00:00Z") 100 1) upperBoundTag = true ↔
      (some "2026-02-01T00:00:00Z").isSome = true) ∧
    strContains (buildGetRecordsXml "2026-01-21T00:00:00Z"
        (some "2026-02-01T00:00:00Z") 100 1) sortByBlock = true :=
  claim7_request_encoder "2026-01-21T00:00:00Z" (some "2026-02-01T00:00:00Z")
    100 1 (by decide) (by decide)
